import Mathlib

/-!
Verification of the resumectl repository's extraction and normalization
pipeline against its specification.

The Go sources are shallowly embedded: pure Go functions become Lean
functions over `String` (modeled as its list of characters), JSON values
become an inductive `Json` type (numbers are modeled as integers; the
payloads relevant here carry only integral numbers and strings), and the
regex front-ends that locate JSON-LD blocks, meta tags and visible-content
matches in the raw HTML are modeled by an `HtmlDoc` record holding the
captured groups those regexes produce.  Network fetches are out of scope:
the functions take the fetched bodies/lists as inputs.

String positions are modeled as character indices; the Go code indexes
bytes, which coincides on the ASCII inputs exercised by the claims.
Case mapping is modeled for ASCII (Go's strings.ToLower/ToUpper are
Unicode-aware); every cased comparison exercised here is ASCII.
-/

namespace Resumectl

/-- `startsWithL pat l` is true when `pat` is an initial segment of `l`. -/
def startsWithL : List Char → List Char → Bool
  | [], _ => true
  | _ :: _, [] => false
  | p :: ps, c :: cs => p == c && startsWithL ps cs

/-- Character index of the first occurrence of `pat` in `l`
(Go `strings.Index`, with byte offsets read as char offsets on ASCII). -/
def findIdxL (pat : List Char) : List Char → Option Nat
  | [] => if pat.isEmpty then some 0 else none
  | c :: cs =>
    if startsWithL pat (c :: cs) then some 0
    else (findIdxL pat cs).map (· + 1)

/-- Go `strings.Contains`. -/
def strContains (s pat : String) : Bool :=
  (findIdxL pat.data s.data).isSome

/-- Go `strings.Index` (char offsets). -/
def strIndex (s pat : String) : Option Nat :=
  findIdxL pat.data s.data

/-- Fuel-driven worker for `replaceAll`; the fuel starts at the length of
the subject and decreases by one per step, which suffices because each
step consumes at least one character. -/
def replaceAllAux (pat rep : List Char) : Nat → List Char → List Char
  | _, [] => []
  | 0, l => l
  | f + 1, c :: cs =>
    if !pat.isEmpty && startsWithL pat (c :: cs) then
      rep ++ replaceAllAux pat rep f (cs.drop (pat.length - 1))
    else
      c :: replaceAllAux pat rep f cs

/-- Go `strings.ReplaceAll` for a non-empty pattern (the empty-pattern
insertion behavior of Go is never exercised by this code base's call
sites, all of which pass literal non-empty entities/markers). -/
def replaceAll (s pat rep : String) : String :=
  ⟨replaceAllAux pat.data rep.data s.data.length s.data⟩

/-- Go `strings.SplitN(s, sep, 2)`. -/
def splitN2 (s sep : String) : List String :=
  match strIndex s sep with
  | some i => [⟨s.data.take i⟩, ⟨s.data.drop (i + sep.data.length)⟩]
  | none => [s]

/-- Fuel-driven worker for `strSplit`. -/
def splitAux (sep : List Char) : Nat → List Char → List (List Char)
  | 0, l => [l]
  | f + 1, l =>
    match findIdxL sep l with
    | some i => l.take i :: splitAux sep f (l.drop (i + sep.length))
    | none => [l]

/-- Go `strings.Split` for a non-empty separator. -/
def strSplit (s sep : String) : List String :=
  (splitAux sep.data (s.data.length + 1) s.data).map (fun l => ⟨l⟩)

/-- Go `strings.Trim(s, cutset)` specialized to a one-character cutset. -/
def trimChar (c : Char) (s : String) : String :=
  ⟨((s.data.dropWhile (· == c)).reverse.dropWhile (· == c)).reverse⟩

/-- Go `strings.TrimSpace` (ASCII whitespace). -/
def trimSpace (s : String) : String :=
  ⟨((s.data.dropWhile Char.isWhitespace).reverse.dropWhile Char.isWhitespace).reverse⟩

/-- Go `strings.TrimPrefix`. -/
def trimLead (s pat : String) : String :=
  if startsWithL pat.data s.data then ⟨s.data.drop pat.data.length⟩ else s

/-- Go `strings.TrimSuffix`. -/
def trimTrail (s pat : String) : String :=
  if startsWithL pat.data.reverse s.data.reverse then
    ⟨s.data.take (s.data.length - pat.data.length)⟩
  else s

/-- ASCII lower-casing of one character (Go's is Unicode-aware; ASCII is
the alphabet exercised by the claims). -/
def asciiLower (c : Char) : Char :=
  if 'A' ≤ c ∧ c ≤ 'Z' then Char.ofNat (c.toNat + 32) else c

/-- ASCII upper-casing of one character. -/
def asciiUpper (c : Char) : Char :=
  if 'a' ≤ c ∧ c ≤ 'z' then Char.ofNat (c.toNat - 32) else c

/-- Go `strings.ToLower` (ASCII model). -/
def strToLower (s : String) : String :=
  ⟨s.data.map asciiLower⟩

/-- First `n` characters of `s`. -/
def strTake (n : Nat) (s : String) : String :=
  ⟨s.data.take n⟩

/-- `s` without its first `n` characters. -/
def strDrop (n : Nat) (s : String) : String :=
  ⟨s.data.drop n⟩

end Resumectl

namespace Resumectl.Models

/-- `internal/models/cv.go`: personal information block of a CV. -/
structure Personal where
  firstName : String := ""
  lastName : String := ""
  title : String := ""
  email : String := ""
  phone : String := ""
  location : String := ""
  linkedIn : String := ""
  gitHub : String := ""
  website : String := ""
  photo : String := ""
deriving DecidableEq, Repr

/-- `internal/models/cv.go`: one professional experience. -/
structure Experience where
  company : String := ""
  position : String := ""
  location : String := ""
  startDate : String := ""
  endDate : String := ""
  description : String := ""
  highlights : List String := []
deriving DecidableEq, Repr

/-- `internal/models/cv.go`: one education entry. -/
structure Education where
  institution : String := ""
  degree : String := ""
  field : String := ""
  location : String := ""
  startDate : String := ""
  endDate : String := ""
  description : String := ""
deriving DecidableEq, Repr

/-- `internal/models/cv.go`: a named category of skills. -/
structure SkillCategory where
  category : String := ""
  items : List String := []
deriving DecidableEq, Repr

/-- `internal/models/cv.go`: a spoken language. -/
structure Language where
  name : String := ""
  level : String := ""
deriving DecidableEq, Repr

/-- `internal/models/cv.go`: a certification. -/
structure Certification where
  name : String := ""
  issuer : String := ""
  date : String := ""
deriving DecidableEq, Repr

/-- `internal/models/cv.go`: a personal project. -/
structure Project where
  name : String := ""
  description : String := ""
  url : String := ""
  technologies : List String := []
deriving DecidableEq, Repr

/-- `internal/models/cv.go`: the complete CV aggregate. -/
structure CV where
  personal : Personal := {}
  summary : String := ""
  experience : List Experience := []
  education : List Education := []
  skills : List SkillCategory := []
  languages : List Language := []
  certifications : List Certification := []
  projects : List Project := []
  interests : List String := []
deriving DecidableEq, Repr

/-- `internal/models/cv.go` `FullName`: space-joined first and last name. -/
def Personal.FullName (p : Personal) : String :=
  p.firstName ++ " " ++ p.lastName

/-- `internal/models/cv.go` `FormatDate`: exact comparison against the two
lowercase sentinels, everything else passes through. -/
def FormatDate (date : String) : String :=
  if date = "present" ∨ date = "présent" then "Présent" else date

end Resumectl.Models

namespace Resumectl.LinkedIn

open Resumectl

/-- JSON values as produced by Go's `encoding/json` unmarshalling into
`map[string]interface{}` / `[]interface{}`.  Numbers are modeled as
integers (the profile payloads embedded in the page carry only integral
numbers); objects are association lists with distinct keys. -/
inductive Json where
  | null : Json
  | str : String → Json
  | num : Int → Json
  | bool : Bool → Json
  | arr : List Json → Json
  | obj : List (String × Json) → Json
deriving Repr

/-- Field lookup in an object (the Go code reads `m["k"]`). -/
def Json.get : Json → String → Option Json
  | .obj fields, k => fields.lookup k
  | _, _ => none

/-- Go type assertion `.(string)`. -/
def Json.getStr (j : Json) (k : String) : Option String :=
  match j.get k with
  | some (.str s) => some s
  | _ => none

/-- Go type assertion `.(map[string]interface{})`. -/
def Json.getObj (j : Json) (k : String) : Option Json :=
  match j.get k with
  | some (.obj fields) => some (.obj fields)
  | _ => none

/-- Go type assertion `.([]interface{})`. -/
def Json.getArr (j : Json) (k : String) : Option (List Json) :=
  match j.get k with
  | some (.arr xs) => some xs
  | _ => none

/-- Whether the value is an object. -/
def Json.isObj : Json → Bool
  | .obj _ => true
  | _ => false

/-- Sort an association list by key (insertion sort on the key strings);
Go's `fmt` package prints map keys in sorted order. -/
def insertByKey (p : String × Json) : List (String × Json) → List (String × Json)
  | [] => [p]
  | q :: qs => if p.1 ≤ q.1 then p :: q :: qs else q :: insertByKey p qs

/-- Fuel-driven worker for `Json.showValue`; the fuel dominates the
nesting depth, so the zero-fuel branch is unreachable from
`Json.showValue` itself. -/
def showValueFuel : Nat → Json → String
  | _, .null => "<nil>"
  | _, .str s => s
  | _, .num n => toString n
  | _, .bool b => if b then "true" else "false"
  | 0, _ => ""
  | f + 1, .arr xs =>
    "[" ++ String.intercalate " " (xs.map (showValueFuel f)) ++ "]"
  | f + 1, .obj fields =>
    "map[" ++
      String.intercalate " "
        ((fields.foldr insertByKey []).map (fun p => p.1 ++ ":" ++ showValueFuel f p.2)) ++
      "]"

mutual

/-- Structural size of a JSON value, used as fuel for `Json.showValue`. -/
def Json.size : Json → Nat
  | .null => 1
  | .str _ => 1
  | .num _ => 1
  | .bool _ => 1
  | .arr xs => 1 + sizeList xs
  | .obj fs => 1 + sizeFields fs

/-- Total size of a list of JSON values. -/
def sizeList : List Json → Nat
  | [] => 0
  | j :: js => Json.size j + sizeList js

/-- Total size of the values of an association list. -/
def sizeFields : List (String × Json) → Nat
  | [] => 0
  | (_, v) :: fs => Json.size v + sizeFields fs

end

/-- `fmt.Sprintf("%v", x)` on an unmarshalled JSON value (the scraper
formats raw `startDate`/`endDate` values this way); map keys print in
sorted order as Go's `fmt` does. -/
def Json.showValue (j : Json) : String :=
  showValueFuel j.size j

/-- `internal/linkedin/scraper.go` `LinkedInExperience`. -/
structure LinkedInExperience where
  title : String := ""
  company : String := ""
  location : String := ""
  startDate : String := ""
  endDate : String := ""
  description : String := ""
deriving DecidableEq, Repr

/-- `internal/linkedin/scraper.go` `LinkedInEducation`. -/
structure LinkedInEducation where
  school : String := ""
  degree : String := ""
  field : String := ""
  startDate : String := ""
  endDate : String := ""
  description : String := ""
deriving DecidableEq, Repr

/-- `internal/linkedin/scraper.go` `LinkedInLanguage`. -/
structure LinkedInLanguage where
  name : String := ""
  proficiency : String := ""
deriving DecidableEq, Repr

/-- `internal/linkedin/scraper.go` `LinkedInCertification`. -/
structure LinkedInCertification where
  name : String := ""
  organization : String := ""
  issueDate : String := ""
deriving DecidableEq, Repr

/-- `internal/linkedin/scraper.go` `LinkedInProfile` (the Extracted
Profile of the spec): created zero-valued, filled by the cascade. -/
structure LinkedInProfile where
  firstName : String := ""
  lastName : String := ""
  headline : String := ""
  location : String := ""
  summary : String := ""
  experience : List LinkedInExperience := []
  education : List LinkedInEducation := []
  skills : List String := []
  languages : List LinkedInLanguage := []
  certifications : List LinkedInCertification := []
deriving DecidableEq, Repr

/-- The zero value `&LinkedInProfile{}`. -/
def emptyProfile : LinkedInProfile := {}

end Resumectl.LinkedIn

namespace Resumectl.LinkedIn

open Resumectl

/-- scraper.go:366: `schemaType, _ := data["@type"].(string)`. -/
def schemaTypeOf (data : Json) : String :=
  (data.getStr "@type").getD ""

/-- scraper.go:374-382: split a JSON-LD `name` into first/last on the
first space, only when the profile's first name is still unset. -/
def nameStep (data : Json) (p : LinkedInProfile) : LinkedInProfile :=
  match data.getStr "name" with
  | some name =>
    if p.firstName = "" then
      match splitN2 name " " with
      | [a] => { p with firstName := a }
      | [a, b] => { p with firstName := a, lastName := b }
      | _ => p
    else p
  | none => p

/-- scraper.go:385-390: copy `description` into the summary (translating
two line-break markers) only when the summary is still unset. -/
def descStepLD (data : Json) (p : LinkedInProfile) : LinkedInProfile :=
  match data.getStr "description" with
  | some description =>
    if p.summary = "" then
      { p with summary :=
          replaceAll (replaceAll description "<br>" "\n") "\\u003Cbr\\u003E" "\n" }
    else p
  | none => p

/-- scraper.go:393-397: copy `address.addressLocality` into the location
whenever it is non-empty (note: with no check that the location is
currently unset). -/
def addrStep (data : Json) (p : LinkedInProfile) : LinkedInProfile :=
  match data.getObj "address" with
  | some address =>
    match address.getStr "addressLocality" with
    | some locality => if locality ≠ "" then { p with location := locality } else p
    | none => p
  | none => p

/-- scraper.go:400-439 (loop body): build one experience from a
`worksFor` record; names and descriptions containing the masking marker
`\x2a\x2a\x2a` are skipped, and the record is appended only when a
company name was kept. -/
def extractWorkEntry (w : Json) : Option LinkedInExperience :=
  let company :=
    match w.getStr "name" with
    | some name => if !strContains name "***" then name else ""
    | none => ""
  let location := (w.getStr "location").getD ""
  let rest :=
    match w.getObj "member" with
    | some member =>
      (match member.getStr "description" with
       | some d => if !strContains d "***" then d else ""
       | none => "",
       match member.get "startDate" with
       | some v => v.showValue
       | none => "",
       match member.get "endDate" with
       | some v => v.showValue
       | none => "")
    | none => ("", "", "")
  if company ≠ "" then
    some { title := "", company := company, location := location,
           startDate := rest.2.1, endDate := rest.2.2, description := rest.1 }
  else none

/-- scraper.go:400-440: process the `worksFor` list, appending the kept
records to the experience list. -/
def worksStep (data : Json) (p : LinkedInProfile) : LinkedInProfile :=
  { p with experience := p.experience ++
      (match data.getArr "worksFor" with
       | some works => works.filterMap (fun w => if w.isObj then extractWorkEntry w else none)
       | none => []) }

/-- scraper.go:443-477 (loop body): build one education entry from an
`alumniOf` record (the member description lands in the degree field);
appended only when a school name was kept. -/
def extractEduEntry (s : Json) : Option LinkedInEducation :=
  let school :=
    match s.getStr "name" with
    | some name => if !strContains name "***" then name else ""
    | none => ""
  let rest :=
    match s.getObj "member" with
    | some member =>
      (match member.getStr "description" with
       | some d => if !strContains d "***" then d else ""
       | none => "",
       match member.get "startDate" with
       | some v => v.showValue
       | none => "",
       match member.get "endDate" with
       | some v => v.showValue
       | none => "")
    | none => ("", "", "")
  if school ≠ "" then
    some { school := school, degree := rest.1, field := "",
           startDate := rest.2.1, endDate := rest.2.2, description := "" }
  else none

/-- scraper.go:443-478: process the `alumniOf` list. -/
def eduStep (data : Json) (p : LinkedInProfile) : LinkedInProfile :=
  { p with education := p.education ++
      (match data.getArr "alumniOf" with
       | some schools => schools.filterMap (fun s => if s.isObj then extractEduEntry s else none)
       | none => []) }

/-- scraper.go:481-491: append `knowsLanguage` entries with a non-empty
name. -/
def langStep (data : Json) (p : LinkedInProfile) : LinkedInProfile :=
  { p with languages := p.languages ++
      (match data.getArr "knowsLanguage" with
       | some langs => langs.filterMap (fun l =>
           if l.isObj then
             match l.getStr "name" with
             | some name => if name ≠ "" then some { name := name, proficiency := "" } else none
             | none => none
           else none)
       | none => []) }

/-- scraper.go:494-500: append non-empty `knowsAbout` strings as skills. -/
def skillsStep (data : Json) (p : LinkedInProfile) : LinkedInProfile :=
  { p with skills := p.skills ++
      (match data.getArr "knowsAbout" with
       | some skills => skills.filterMap (fun sk =>
           match sk with
           | .str t => if t ≠ "" then some t else none
           | _ => none)
       | none => []) }

/-- scraper.go:505-510: first list element that is a string free of the
masking marker. -/
def firstNonMaskedTitle : List Json → Option String
  | [] => none
  | .str t :: rest => if !strContains t "***" then some t else firstNonMaskedTitle rest
  | _ :: rest => firstNonMaskedTitle rest

/-- scraper.go:503-513: take the headline from `jobTitle` (list or
scalar); the write is unconditional — no check that the headline is
currently unset. -/
def titleStepLD (data : Json) (p : LinkedInProfile) : LinkedInProfile :=
  match data.get "jobTitle" with
  | some (.arr jts) =>
    if jts.length > 0 then
      match firstNonMaskedTitle jts with
      | some t => { p with headline := t }
      | none => p
    else p
  | some (.str t) => if !strContains t "***" then { p with headline := t } else p
  | _ => p

/-- scraper.go:364-514 `extractFromJSONLD`: process one JSON-LD record
(only `Person`-typed or untyped records), running the steps in the Go
function's statement order. -/
def extractFromJSONLD (data : Json) (p : LinkedInProfile) : LinkedInProfile :=
  if schemaTypeOf data ≠ "Person" ∧ schemaTypeOf data ≠ "" then p
  else
    titleStepLD data (skillsStep data (langStep data (eduStep data
      (worksStep data (addrStep data (descStepLD data (nameStep data p)))))))

end Resumectl.LinkedIn

namespace Resumectl.LinkedIn

open Resumectl

/-- scraper.go:733-740: the fixed entity-replacement table of
`cleanHTMLEntities`.  In Go it is a map literal; the order in which
`range` visits it is unspecified and may differ between runs (and even
between calls within one run). -/
def entityReplacements : List (String × String) :=
  [("&amp;", "&"), ("&lt;", "<"), ("&gt;", ">"),
   ("&quot;", "\""), ("&#39;", "\x27"), ("&nbsp;", " ")]

/-- scraper.go:732-747 `cleanHTMLEntities`: apply the six replacements in
the order the map iteration happens to visit them; a real run corresponds
to some permutation of `entityReplacements`. -/
def cleanHTMLEntities (order : List (String × String)) (s : String) : String :=
  order.foldl (fun acc pr => replaceAll acc pr.1 pr.2) s

/-- The output of the regex front-end of `parseLinkedInHTML` over one
fetched HTML body: the successfully JSON-parsed payloads of the
`application/ld+json` script blocks in document order, the first-match
capture of each meta-tag regex (og:title, og:description, geo.placename),
and the first-match captures of the two visible-content location regexes
of `extractFromHTMLContent`, in their fixed order. -/
structure HtmlDoc where
  jsonLdBlocks : List Json
  ogTitle : Option String
  ogDescription : Option String
  geoPlacename : Option String
  contentMatches : List (Option String)

/-- scraper.go:526-528: the first-name write from the og:title name part,
guarded on the first name being unset. -/
def metaFirstNameOf (namePart : String) (old : String) : String :=
  if old = "" ∧ (splitN2 namePart " ").length ≥ 1 then (splitN2 namePart " ").headD ""
  else old

/-- scraper.go:529-531: the last-name write from the og:title name part,
guarded on the last name being unset. -/
def metaLastNameOf (namePart : String) (old : String) : String :=
  if old = "" ∧ (splitN2 namePart " ").length ≥ 2 then
    match splitN2 namePart " " with
    | _ :: b :: _ => b
    | _ => ""
  else old

/-- scraper.go:534-539: the headline write from the og:title rest part
(between " - " and " | "), guarded on the headline being unset. -/
def metaHeadlineOf (restPart : String) (old : String) : String :=
  match strIndex restPart " | " with
  | some pipeIdx =>
    if pipeIdx > 0 ∧ old = "" then trimSpace (strTake pipeIdx restPart) else old
  | none => old

/-- scraper.go:519-541: og:title handling — split the part before the
first " - " into first/last name (each written only when unset) and take
a headline from the part between " - " and " | " when unset.  The three
writes have independent guards on their own fields, so they are given
field-wise. -/
def metaTitleStep (doc : HtmlDoc) (p : LinkedInProfile) : LinkedInProfile :=
  match doc.ogTitle with
  | some title =>
    match strIndex title " - " with
    | some idx =>
      if idx > 0 then
        { p with
          firstName := metaFirstNameOf (strTake idx title) p.firstName
          lastName := metaLastNameOf (strTake idx title) p.lastName
          headline := metaHeadlineOf (strDrop (idx + 3) title) p.headline }
      else p
    | none => p
  | none => p

/-- scraper.go:544-549: og:description fills the summary (after entity
cleanup) only when the summary is unset. -/
def metaDescStep (order : List (String × String)) (doc : HtmlDoc)
    (p : LinkedInProfile) : LinkedInProfile :=
  match doc.ogDescription with
  | some d =>
    if p.summary = "" then { p with summary := cleanHTMLEntities order d } else p
  | none => p

/-- scraper.go:552-557: geo.placename fills the location only when the
location is unset. -/
def metaGeoStep (doc : HtmlDoc) (p : LinkedInProfile) : LinkedInProfile :=
  match doc.geoPlacename with
  | some g => if p.location = "" then { p with location := g } else p
  | none => p

/-- scraper.go:517-558 `extractFromMetaTags`. -/
def extractFromMetaTags (order : List (String × String)) (doc : HtmlDoc)
    (p : LinkedInProfile) : LinkedInProfile :=
  metaGeoStep doc (metaDescStep order doc (metaTitleStep doc p))

/-- scraper.go:568-577: loop over the visible-content location matches;
the first trimmed match that finds the location unset and does not look
like an email address is written, then the loop stops. -/
def contentLocLoop : List (Option String) → LinkedInProfile → LinkedInProfile
  | [], p => p
  | none :: rest, p => contentLocLoop rest p
  | some m :: rest, p =>
    if p.location = "" ∧ !strContains (trimSpace m) "@" then
      { p with location := trimSpace m }
    else contentLocLoop rest p

/-- scraper.go:561-578 `extractFromHTMLContent`. -/
def extractFromHTMLContent (doc : HtmlDoc) (p : LinkedInProfile) : LinkedInProfile :=
  contentLocLoop doc.contentMatches p

/-- scraper.go:750-755 `capitalizeFirst`: first byte upper-cased, rest
lower-cased (ASCII model). -/
def capitalizeFirst (s : String) : String :=
  match s.data with
  | [] => s
  | c :: rest => ⟨asciiUpper c :: rest.map asciiLower⟩

/-- scraper.go:350-358: when no name was recovered, synthesize one from
the username: split on a hyphen, two or more segments give first/last
name, a single segment gives the first name only. -/
def usernameFallback (username : String) (p : LinkedInProfile) : LinkedInProfile :=
  if p.firstName = "" ∧ p.lastName = "" then
    match strSplit username "-" with
    | a :: b :: _ => { p with firstName := capitalizeFirst a, lastName := capitalizeFirst b }
    | _ => { p with firstName := capitalizeFirst username }
  else p

/-- scraper.go:323-341: one JSON-LD script block.  Go first tries to
unmarshal an object with an `@graph` list of records and iterates it;
otherwise it re-parses the payload as a single object and processes
that; non-object payloads fail both unmarshals and are skipped. -/
def processJsonLdBlock (p : LinkedInProfile) (block : Json) : LinkedInProfile :=
  match block with
  | .obj _ =>
    match block.get "@graph" with
    | some (.arr items) =>
      if items.length > 0 ∧ items.all Json.isObj then
        items.foldl (fun acc it => extractFromJSONLD it acc) p
      else extractFromJSONLD block p
    | some _ => extractFromJSONLD block p
    | none => extractFromJSONLD block p
  | _ => p

/-- scraper.go:311-361 `parseLinkedInHTML`, unauthenticated path
(`authenticated = false`, so the Voyager pre-pass is skipped): JSON-LD
blocks, then meta tags, then visible content, then the username
fallback. -/
def parseLinkedInHTML (order : List (String × String)) (doc : HtmlDoc)
    (username : String) : LinkedInProfile :=
  usernameFallback username
    (extractFromHTMLContent doc
      (extractFromMetaTags order doc
        (doc.jsonLdBlocks.foldl processJsonLdBlock emptyProfile)))

end Resumectl.LinkedIn

namespace Resumectl.LinkedIn

open Resumectl

/-- Path component of a URL as Go's `net/url.Parse` reports it for the
host/path URLs this code handles: everything from the first slash after
the scheme and host, with the query and fragment cut off.  (Percent
encoding, userinfo and other `url.Parse` niceties are not exercised by
`ExtractUsernameFromURL`'s inputs and are not modeled.) -/
def urlPathOf (u : String) : String :=
  let rest :=
    match strIndex u "://" with
    | some i => strDrop (i + 3) u
    | none => u
  match findIdxL ['/'] rest.data with
  | some i =>
    let path := strDrop i rest
    let path :=
      match strIndex path "?" with
      | some q => strTake q path
      | none => path
    match strIndex path "#" with
    | some h => strTake h path
    | none => path
  | none => ""

/-- scraper.go:107-108: trimmed URL path split on slashes (after the
scheme was supplied when missing). -/
def pathParts (s : String) : List String :=
  strSplit (trimChar '/' (urlPathOf (trimSpace s))) "/"

/-- scraper.go:111-115: scan for an "in" component followed by another
component and return that successor. -/
def findInHandle : List String → Option String
  | x :: y :: rest => if x = "in" then some y else findInHandle (y :: rest)
  | _ => none

/-- scraper.go:82-123 `ExtractUsernameFromURL`: inputs not containing the
site domain pass through as the handle; URL-shaped inputs yield the
component after "/in/", or a lone single path component, and otherwise
the error. -/
def ExtractUsernameFromURL (linkedinURL : String) : Except String String :=
  let u := trimSpace linkedinURL
  if !strContains u "linkedin.com" then .ok u
  else
    let parts := pathParts linkedinURL
    match findInHandle parts with
    | some h => .ok h
    | none =>
      if parts.length = 1 ∧ parts.headD "" ≠ "" then .ok (parts.headD "")
      else .error ("could not extract username from LinkedIn URL: " ++ u)

/-- scraper.go:869-885 `mapProficiencyLevel`: ordered case-insensitive
substring checks, first match wins; the default branch returns the
already lower-cased input. -/
def mapProficiencyLevel (proficiency : String) : String :=
  let p := strToLower proficiency
  if strContains p "native" || strContains p "bilingual" then "Native"
  else if strContains p "full professional" || strContains p "fluent" then "Fluent (C1-C2)"
  else if strContains p "professional working" then "Professional (B2)"
  else if strContains p "limited working" then "Intermediate (B1)"
  else if strContains p "elementary" then "Elementary (A2)"
  else p

/-- scraper.go:836-842 `formatLinkedInURL`. -/
def formatLinkedInURL (url : String) : String :=
  trimTrail (trimLead (trimLead (trimLead url "https://") "http://") "www.") "/"

/-- scraper.go:759-833 `ToCV`: convert an extracted profile to the CV
model.  Contact email and phone are fixed placeholders, the projects
list is left empty.  (Go distinguishes a nil and an empty highlights
slice at scraper.go:783-786; both are the empty list here.) -/
def ToCV (p : LinkedInProfile) (linkedinURL : String) : Models.CV :=
  { personal :=
      { firstName := p.firstName
        lastName := p.lastName
        title := p.headline
        email := "your.email@example.com"
        phone := "+33 6 00 00 00 00"
        location := p.location
        linkedIn := formatLinkedInURL linkedinURL }
    summary := p.summary
    experience := p.experience.map (fun exp =>
      { company := exp.company
        position := exp.title
        location := exp.location
        startDate := exp.startDate
        endDate := exp.endDate
        description := exp.description
        highlights := [] })
    education := p.education.map (fun edu =>
      { institution := edu.school
        degree := edu.degree
        field := edu.field
        startDate := edu.startDate
        endDate := edu.endDate
        description := edu.description })
    skills := if p.skills.length > 0 then [{ category := "Skills", items := p.skills }] else []
    languages := p.languages.map (fun lang =>
      { name := lang.name, level := mapProficiencyLevel lang.proficiency })
    certifications := p.certifications.map (fun cert =>
      { name := cert.name, issuer := cert.organization, date := cert.issueDate })
    projects := []
    interests := [] }

end Resumectl.LinkedIn

namespace Resumectl.GitHub

open Resumectl

/-- github.go `Repository`: the fields of a fetched repository record
used by the importer. -/
structure Repository where
  name : String := ""
  fullName : String := ""
  description : String := ""
  htmlURL : String := ""
  stargazersCount : Nat := 0
  forksCount : Nat := 0
  language : String := ""
  topics : List String := []
  fork : Bool := false
  archived : Bool := false
deriving DecidableEq, Repr

/-- github.go `Project`: a project prepared for the CV, with the star
count retained for ranking. -/
structure Project where
  name : String := ""
  description : String := ""
  url : String := ""
  technologies : List String := []
  stars : Nat := 0
deriving DecidableEq, Repr

/-- github.go:240-248 `containsIgnoreCase`. -/
def containsIgnoreCase (slice : List String) (str : String) : Bool :=
  slice.any (fun s => strToLower s == strToLower str)

/-- github.go:104-131 (loop body): map one repository to a project; the
primary language (when present) then the topic tags, de-duplicated
case-insensitively with first-seen casing kept. -/
def repoToProject (repo : Repository) : Project :=
  let techs := if repo.language ≠ "" then [repo.language] else []
  let techs := repo.topics.foldl
    (fun acc topic => if containsIgnoreCase acc topic then acc else acc ++ [topic]) techs
  { name := repo.name
    description := repo.description
    url := repo.htmlURL
    technologies := techs
    stars := repo.stargazersCount }

/-- The contract of the Go stdlib's `sort.Slice` at github.go:94-96 with
the comparator `stargazersCount i > stargazersCount j`: the result is a
permutation of the input that is sorted by star count descending.
`sort.Slice` is documented NOT to be stable, so nothing beyond this
contract constrains the order of equal-star repositories. -/
def SortsByStarsDesc (f : List Repository → List Repository) : Prop :=
  ∀ l : List Repository,
    (f l).Perm l ∧ (f l).Pairwise (fun a b => b.stargazersCount ≤ a.stargazersCount)

/-- github.go:66-134 `FetchTopProjects` after the network fetch: the
fetched repository list is a parameter, and the stdlib sort is a
parameter constrained by `SortsByStarsDesc` (the repository's own code
fixes only the comparator, not the tie order).  Coerce a non-positive
count to 5, drop forks and archived repositories, sort by stars
descending, truncate to the count, and convert. -/
def FetchTopProjects (sortImpl : List Repository → List Repository)
    (repos : List Repository) (count : Int) : List Project :=
  let countN : Nat := if count ≤ 0 then 5 else count.toNat
  let ownRepos := repos.filter (fun repo => !repo.fork && !repo.archived)
  let sorted := sortImpl ownRepos
  let top := if sorted.length > countN then sorted.take countN else sorted
  top.map repoToProject

/-- A stable conforming sort: Mathlib's insertion sort with the
descending-stars relation. -/
def insertionSortDesc (l : List Repository) : List Repository :=
  List.insertionSort (fun a b => b.stargazersCount ≤ a.stargazersCount) l

/-- A tie-reversing conforming sort: insertion-sort ascending, then
reverse.  It satisfies `SortsByStarsDesc` but outputs equal-star
repositories in reverse encounter order. -/
def revTieSortDesc (l : List Repository) : List Repository :=
  (List.insertionSort (fun a b => a.stargazersCount ≤ b.stargazersCount) l).reverse

end Resumectl.GitHub

namespace Resumectl.Templates

open Resumectl

/-- templates.go `ColorScheme`. -/
structure ColorScheme where
  primary : String := ""
  secondary : String := ""
  accent : String := ""
deriving DecidableEq, Repr

/-- Whether a character is a hexadecimal digit (the regex class
0-9A-Fa-f). -/
def isHexDigit (c : Char) : Bool :=
  ('0' ≤ c ∧ c ≤ '9') ∨ ('a' ≤ c ∧ c ≤ 'f') ∨ ('A' ≤ c ∧ c ≤ 'F')

/-- templates.go:322-328 `ValidateHexColor`: the empty string is valid;
otherwise a hash followed by exactly 3 or 6 hex digits. -/
def ValidateHexColor (color : String) : Bool :=
  if color = "" then true
  else
    match color.data with
    | '#' :: rest => (rest.length = 6 || rest.length = 3) && rest.all isHexDigit
    | _ => false

/-- Value of one hex digit (the code-point ranges are 0-9, a-f, A-F). -/
def hexDigitVal (c : Char) : Option Nat :=
  if 48 ≤ c.toNat ∧ c.toNat ≤ 57 then some (c.toNat - 48)
  else if 97 ≤ c.toNat ∧ c.toNat ≤ 102 then some (c.toNat - 87)
  else if 65 ≤ c.toNat ∧ c.toNat ≤ 70 then some (c.toNat - 55)
  else none

/-- templates.go:361-363: expand the 3-digit shorthand by doubling each
digit. -/
def expand3 (l : List Char) : List Char :=
  match l with
  | [a, b, c] => [a, a, b, b, c, c]
  | _ => l

/-- templates.go:359-367 `hexToRGB`: strip the hash, expand a 3-digit
form, and scan three two-digit hex pairs.  Modeled for the well-formed
3- or 6-digit inputs `ValidateHexColor` admits; `fmt.Sscanf`'s partial
parse on malformed input leaves the channels at their zero value, which
is the fallback here. -/
def hexToRGB (hex : String) : Nat × Nat × Nat :=
  let h := trimLead hex "#"
  let h := if h.data.length = 3 then expand3 h.data else h.data
  match h with
  | [a, b, c, d, e, f] =>
    match hexDigitVal a, hexDigitVal b, hexDigitVal c,
          hexDigitVal d, hexDigitVal e, hexDigitVal f with
    | some va, some vb, some vc, some vd, some ve, some vf =>
      (va * 16 + vb, vc * 16 + vd, ve * 16 + vf)
    | _, _, _, _, _, _ => (0, 0, 0)
  | _ => (0, 0, 0)

/-- templates.go:374-382 `clamp` on the natural channel values produced
here (the negative branch of the Go code is unreachable for them). -/
def clamp (v : Nat) : Nat :=
  if v > 255 then 255 else v

/-- Lower-case hex digit of a value below 16. -/
def hexDigitChar (n : Nat) : Char :=
  if n < 10 then Char.ofNat (48 + n) else Char.ofNat (87 + n)

/-- Two-digit lower-case hex rendering of a byte (`%02x`). -/
def toHex2 (n : Nat) : List Char :=
  [hexDigitChar (n / 16 % 16), hexDigitChar (n % 16)]

/-- templates.go:370-372 `rgbToHex`. -/
def rgbToHex (r g b : Nat) : String :=
  ⟨'#' :: (toHex2 (clamp r) ++ toHex2 (clamp g) ++ toHex2 (clamp b))⟩

/-- One channel of templates.go:341-347 `darkenColor` with factor 0.2:
`int(float64(c) * 0.8)`.  For every channel value 0..255 the float64
computation truncates to exactly ⌊4c/5⌋, which is the definition used
here. -/
def darkenChannel (c : Nat) : Nat :=
  c * 4 / 5

/-- One channel of templates.go:350-356 `lightenColor` with factor 0.15:
`c + int(float64(255-c) * 0.15)`.  For every channel value 0..255 the
float64 computation truncates to exactly ⌊3(255-c)/20⌋, which is the
definition used here. -/
def lightenChannel (c : Nat) : Nat :=
  c + (255 - c) * 3 / 20

/-- templates.go:341-347 `darkenColor` at factor 0.2. -/
def darkenColor (hex : String) : String :=
  let rgb := hexToRGB hex
  rgbToHex (darkenChannel rgb.1) (darkenChannel rgb.2.1) (darkenChannel rgb.2.2)

/-- templates.go:350-356 `lightenColor` at factor 0.15. -/
def lightenColor (hex : String) : String :=
  let rgb := hexToRGB hex
  rgbToHex (lightenChannel rgb.1) (lightenChannel rgb.2.1) (lightenChannel rgb.2.2)

/-- templates.go:331-338 `DeriveColorScheme`. -/
def DeriveColorScheme (primary : String) : ColorScheme :=
  { primary := primary
    secondary := darkenColor primary
    accent := lightenColor primary }

end Resumectl.Templates

namespace Resumectl

open Resumectl.Models Resumectl.LinkedIn Resumectl.GitHub Resumectl.Templates

/-- C10: converting any extracted profile to the canonical Resume always
sets the placeholder email and phone and an empty projects list,
regardless of the profile's contents. -/
theorem c10_tocv_placeholders (p : LinkedInProfile) (url : String) :
    (ToCV p url).personal.email = "your.email@example.com" ∧
    (ToCV p url).personal.phone = "+33 6 00 00 00 00" ∧
    (ToCV p url).projects = ([] : List Models.Project) :=
  ⟨rfl, rfl, rfl⟩

/-- C4 counterexample: the claim says "present" in any letter case maps
to the localized token, but `FormatDate` compares exactly, so the input
"Present" passes through unchanged and is not "Présent". -/
theorem c4_counterexample :
    FormatDate "Present" = "Present" ∧ "Present" ≠ "Présent" := by
  refine ⟨rfl, ?_⟩
  decide

/-- C4 amended: exactly the lowercase literals "present" and "présent"
render as "Présent"; every other string — including "Present" and
"PRESENT" — is returned unchanged. -/
theorem c4_amended (date : String) :
    (date = "present" ∨ date = "présent" → FormatDate date = "Présent") ∧
    (date ≠ "present" → date ≠ "présent" → FormatDate date = date) := by
  constructor
  · intro h
    simp [FormatDate, h]
  · intro h1 h2
    simp [FormatDate, h1, h2]

/-- Witness for `c4_amended` at the sentinel "present" and at the
claim-breaking input "PRESENT". -/
theorem c4_amended_witness :
    FormatDate "present" = "Présent" ∧ FormatDate "PRESENT" = "PRESENT" :=
  ⟨(c4_amended "present").1 (Or.inl rfl),
   (c4_amended "PRESENT").2 (by decide) (by decide)⟩

/-- C8 counterexample: the claim says unmatched inputs pass through
verbatim, but the default branch returns the lower-cased input:
"Beginner" maps to "beginner". -/
theorem c8_counterexample :
    mapProficiencyLevel "Beginner" = "beginner" ∧
    mapProficiencyLevel "Beginner" ≠ "Beginner" := by
  constructor
  · rfl
  · decide

/-- C8 amended: the ordered case-insensitive substring checks map to the
five named bands with first match winning, and any input matching none
of the checks is returned lower-cased (not verbatim). -/
theorem c8_amended (s : String) :
    ((strContains (strToLower s) "native" || strContains (strToLower s) "bilingual") = true →
      mapProficiencyLevel s = "Native") ∧
    ((strContains (strToLower s) "native" || strContains (strToLower s) "bilingual") = false →
      (strContains (strToLower s) "full professional" || strContains (strToLower s) "fluent") = true →
      mapProficiencyLevel s = "Fluent (C1-C2)") ∧
    ((strContains (strToLower s) "native" || strContains (strToLower s) "bilingual") = false →
      (strContains (strToLower s) "full professional" || strContains (strToLower s) "fluent") = false →
      strContains (strToLower s) "professional working" = true →
      mapProficiencyLevel s = "Professional (B2)") ∧
    ((strContains (strToLower s) "native" || strContains (strToLower s) "bilingual") = false →
      (strContains (strToLower s) "full professional" || strContains (strToLower s) "fluent") = false →
      strContains (strToLower s) "professional working" = false →
      strContains (strToLower s) "limited working" = true →
      mapProficiencyLevel s = "Intermediate (B1)") ∧
    ((strContains (strToLower s) "native" || strContains (strToLower s) "bilingual") = false →
      (strContains (strToLower s) "full professional" || strContains (strToLower s) "fluent") = false →
      strContains (strToLower s) "professional working" = false →
      strContains (strToLower s) "limited working" = false →
      strContains (strToLower s) "elementary" = true →
      mapProficiencyLevel s = "Elementary (A2)") ∧
    ((strContains (strToLower s) "native" || strContains (strToLower s) "bilingual") = false →
      (strContains (strToLower s) "full professional" || strContains (strToLower s) "fluent") = false →
      strContains (strToLower s) "professional working" = false →
      strContains (strToLower s) "limited working" = false →
      strContains (strToLower s) "elementary" = false →
      mapProficiencyLevel s = strToLower s) := by
  refine ⟨?_, ?_, ?_, ?_, ?_, ?_⟩ <;>
    intros <;> simp_all [mapProficiencyLevel]

/-- Witness for `c8_amended`: one concrete input per band plus the
lower-cased pass-through. -/
theorem c8_amended_witness :
    mapProficiencyLevel "Native or bilingual" = "Native" ∧
    mapProficiencyLevel "Fluent" = "Fluent (C1-C2)" ∧
    mapProficiencyLevel "Professional working" = "Professional (B2)" ∧
    mapProficiencyLevel "Limited working" = "Intermediate (B1)" ∧
    mapProficiencyLevel "Elementary" = "Elementary (A2)" ∧
    mapProficiencyLevel "Beginner" = "beginner" :=
  ⟨(c8_amended "Native or bilingual").1 (by decide),
   (c8_amended "Fluent").2.1 (by decide) (by decide),
   (c8_amended "Professional working").2.2.1 (by decide) (by decide) (by decide),
   (c8_amended "Limited working").2.2.2.1 (by decide) (by decide) (by decide) (by decide),
   (c8_amended "Elementary").2.2.2.2.1 (by decide) (by decide) (by decide) (by decide) (by decide),
   (c8_amended "Beginner").2.2.2.2.2 (by decide) (by decide) (by decide) (by decide) (by decide)⟩

end Resumectl

namespace Resumectl

open Resumectl.LinkedIn

/-- C5: the full profile URL and the bare handle both normalize to
"johndoe"; an input not containing the site domain always succeeds
(passing through as the handle), so the error arises only for URL-shaped
inputs; a URL-shaped input whose path has no "in"-followed-by-handle
segment and more than one component fails; and a URL-shaped input with
an "in"-followed-by-handle segment returns that handle. -/
theorem c5_extract_username :
    (ExtractUsernameFromURL "https://www.linkedin.com/in/johndoe/" = .ok "johndoe") ∧
    (ExtractUsernameFromURL "johndoe" = .ok "johndoe") ∧
    (∀ s : String, strContains (trimSpace s) "linkedin.com" = false →
      ExtractUsernameFromURL s = .ok (trimSpace s)) ∧
    (∀ s : String, strContains (trimSpace s) "linkedin.com" = true →
      findInHandle (pathParts s) = none →
      (pathParts s).length > 1 →
      ∃ msg, ExtractUsernameFromURL s = .error msg) ∧
    (∀ (s h : String), strContains (trimSpace s) "linkedin.com" = true →
      findInHandle (pathParts s) = some h →
      ExtractUsernameFromURL s = .ok h) := by
  refine ⟨by rfl, by rfl, ?_, ?_, ?_⟩
  · intro s hc
    simp [ExtractUsernameFromURL, hc]
  · intro s hc hfind hlen
    refine ⟨"could not extract username from LinkedIn URL: " ++ trimSpace s, ?_⟩
    simp [ExtractUsernameFromURL, hc, hfind]
    intro h1
    omega
  · intro s h hc hfind
    simp [ExtractUsernameFromURL, hc, hfind]

/-- Witness for `c5_extract_username`: the non-domain input "plainname"
passes through, "https://www.linkedin.com/company/foo" (no "/in/"
segment, two path components) fails, and the "/in/" URL succeeds. -/
theorem c5_extract_username_witness :
    (ExtractUsernameFromURL "plainname" = .ok "plainname") ∧
    (∃ msg, ExtractUsernameFromURL "https://www.linkedin.com/company/foo" = .error msg) ∧
    (ExtractUsernameFromURL "https://www.linkedin.com/in/jane-doe" = .ok "jane-doe") :=
  ⟨by
    have := c5_extract_username.2.2.1 "plainname" (by decide)
    simpa using this,
   c5_extract_username.2.2.2.1 "https://www.linkedin.com/company/foo"
     (by decide) (by decide) (by decide),
   c5_extract_username.2.2.2.2 "https://www.linkedin.com/in/jane-doe" "jane-doe"
     (by decide) (by decide)⟩

end Resumectl

namespace Resumectl.Templates

open Resumectl

/-- A parsed hex digit is below 16. -/
theorem hexDigitVal_le {c : Char} {v : Nat} (h : hexDigitVal c = some v) : v ≤ 15 := by
  unfold hexDigitVal at h
  split at h
  · cases h
    omega
  · split at h
    · cases h
      omega
    · split at h
      · cases h
        omega
      · cases h

/-- Every channel `hexToRGB` produces is a byte. -/
theorem hexToRGB_le (hex : String) :
    (hexToRGB hex).1 ≤ 255 ∧ (hexToRGB hex).2.1 ≤ 255 ∧ (hexToRGB hex).2.2 ≤ 255 := by
  simp only [hexToRGB]
  split
  · rename_i a b c d e f heq
    split
    · rename_i va vb vc vd ve vf h1 h2 h3 h4 h5 h6
      have := hexDigitVal_le h1
      have := hexDigitVal_le h2
      have := hexDigitVal_le h3
      have := hexDigitVal_le h4
      have := hexDigitVal_le h5
      have := hexDigitVal_le h6
      refine ⟨?_, ?_, ?_⟩ <;> simp <;> omega
    · simp
  · simp

/-- `hexDigitChar` inverts `hexDigitVal` on values below 16. -/
theorem hexDigitVal_hexDigitChar : ∀ m : Nat, m < 16 → hexDigitVal (hexDigitChar m) = some m := by
  decide

/-- Round trip: rendering a byte triple as lowercase hex and re-parsing
it recovers the triple (the spec's `hexToRGB(rgbToHex(r,g,b)) == (r,g,b)`
for valid triples). -/
theorem hexToRGB_rgbToHex (r g b : Nat) (hr : r ≤ 255) (hg : g ≤ 255) (hb : b ≤ 255) :
    hexToRGB (rgbToHex r g b) = (r, g, b) := by
  have cr : clamp r = r := by
    simp [clamp]
    omega
  have cg : clamp g = g := by
    simp [clamp]
    omega
  have cb : clamp b = b := by
    simp [clamp]
    omega
  have h1 : r / 16 % 16 < 16 := Nat.mod_lt _ (by omega)
  have h2 : r % 16 < 16 := Nat.mod_lt _ (by omega)
  have h3 : g / 16 % 16 < 16 := Nat.mod_lt _ (by omega)
  have h4 : g % 16 < 16 := Nat.mod_lt _ (by omega)
  have h5 : b / 16 % 16 < 16 := Nat.mod_lt _ (by omega)
  have h6 : b % 16 < 16 := Nat.mod_lt _ (by omega)
  simp [rgbToHex, toHex2, cr, cg, cb, hexToRGB, trimLead, startsWithL,
    hexDigitVal_hexDigitChar _ h1, hexDigitVal_hexDigitChar _ h2,
    hexDigitVal_hexDigitChar _ h3, hexDigitVal_hexDigitChar _ h4,
    hexDigitVal_hexDigitChar _ h5, hexDigitVal_hexDigitChar _ h6]
  omega

end Resumectl.Templates

namespace Resumectl.Templates

open Resumectl

/-- Darkening never increases a channel. -/
theorem darkenChannel_le (c : Nat) : darkenChannel c ≤ c := by
  simp only [darkenChannel]
  omega

/-- Lightening never decreases a channel. -/
theorem le_lightenChannel (c : Nat) : c ≤ lightenChannel c := by
  simp only [lightenChannel]
  omega

/-- Lightening a byte stays a byte. -/
theorem lightenChannel_le (c : Nat) (hc : c ≤ 255) : lightenChannel c ≤ 255 := by
  simp only [lightenChannel]
  omega

/-- C9: for every valid hex primary color, the derived secondary color is
channel-wise at most the primary, and the derived accent color is
channel-wise at least the primary and at most 255. -/
theorem c9_color_scheme (hex : String)
    (_hvalid : ValidateHexColor hex = true) (_hne : hex ≠ "") :
    ((hexToRGB (DeriveColorScheme hex).secondary).1 ≤ (hexToRGB hex).1 ∧
     (hexToRGB (DeriveColorScheme hex).secondary).2.1 ≤ (hexToRGB hex).2.1 ∧
     (hexToRGB (DeriveColorScheme hex).secondary).2.2 ≤ (hexToRGB hex).2.2) ∧
    ((hexToRGB hex).1 ≤ (hexToRGB (DeriveColorScheme hex).accent).1 ∧
     (hexToRGB hex).2.1 ≤ (hexToRGB (DeriveColorScheme hex).accent).2.1 ∧
     (hexToRGB hex).2.2 ≤ (hexToRGB (DeriveColorScheme hex).accent).2.2) ∧
    ((hexToRGB (DeriveColorScheme hex).accent).1 ≤ 255 ∧
     (hexToRGB (DeriveColorScheme hex).accent).2.1 ≤ 255 ∧
     (hexToRGB (DeriveColorScheme hex).accent).2.2 ≤ 255) := by
  obtain ⟨hr, hg, hb⟩ := hexToRGB_le hex
  have hsec : hexToRGB (DeriveColorScheme hex).secondary =
      (darkenChannel (hexToRGB hex).1,
       darkenChannel (hexToRGB hex).2.1,
       darkenChannel (hexToRGB hex).2.2) := by
    show hexToRGB (darkenColor hex) = _
    simp only [darkenColor]
    exact hexToRGB_rgbToHex _ _ _
      (le_trans (darkenChannel_le _) hr)
      (le_trans (darkenChannel_le _) hg)
      (le_trans (darkenChannel_le _) hb)
  have hacc : hexToRGB (DeriveColorScheme hex).accent =
      (lightenChannel (hexToRGB hex).1,
       lightenChannel (hexToRGB hex).2.1,
       lightenChannel (hexToRGB hex).2.2) := by
    show hexToRGB (lightenColor hex) = _
    simp only [lightenColor]
    exact hexToRGB_rgbToHex _ _ _
      (lightenChannel_le _ hr) (lightenChannel_le _ hg) (lightenChannel_le _ hb)
  rw [hsec, hacc]
  exact ⟨⟨darkenChannel_le _, darkenChannel_le _, darkenChannel_le _⟩,
    ⟨le_lightenChannel _, le_lightenChannel _, le_lightenChannel _⟩,
    ⟨lightenChannel_le _ hr, lightenChannel_le _ hg, lightenChannel_le _ hb⟩⟩

/-- Witness for `c9_color_scheme` at the spec's example primary
color. -/
theorem c9_color_scheme_witness :
    ValidateHexColor "#800000" = true ∧
    ((hexToRGB (DeriveColorScheme "#800000").secondary).1 ≤ (hexToRGB "#800000").1 ∧
     (hexToRGB (DeriveColorScheme "#800000").secondary).2.1 ≤ (hexToRGB "#800000").2.1 ∧
     (hexToRGB (DeriveColorScheme "#800000").secondary).2.2 ≤ (hexToRGB "#800000").2.2) ∧
    ((hexToRGB "#800000").1 ≤ (hexToRGB (DeriveColorScheme "#800000").accent).1 ∧
     (hexToRGB "#800000").2.1 ≤ (hexToRGB (DeriveColorScheme "#800000").accent).2.1 ∧
     (hexToRGB "#800000").2.2 ≤ (hexToRGB (DeriveColorScheme "#800000").accent).2.2) ∧
    ((hexToRGB (DeriveColorScheme "#800000").accent).1 ≤ 255 ∧
     (hexToRGB (DeriveColorScheme "#800000").accent).2.1 ≤ 255 ∧
     (hexToRGB (DeriveColorScheme "#800000").accent).2.2 ≤ 255) :=
  ⟨by decide,
   (c9_color_scheme "#800000" (by decide) (by decide)).1,
   (c9_color_scheme "#800000" (by decide) (by decide)).2.1,
   (c9_color_scheme "#800000" (by decide) (by decide)).2.2⟩

end Resumectl.Templates

namespace Resumectl.GitHub

open Resumectl

instance : IsTotal Repository (fun a b => b.stargazersCount ≤ a.stargazersCount) :=
  ⟨fun a b => Nat.le_total b.stargazersCount a.stargazersCount⟩

instance : IsTrans Repository (fun a b => b.stargazersCount ≤ a.stargazersCount) :=
  ⟨fun _ _ _ hab hbc => le_trans hbc hab⟩

instance : IsTotal Repository (fun a b => a.stargazersCount ≤ b.stargazersCount) :=
  ⟨fun a b => Nat.le_total a.stargazersCount b.stargazersCount⟩

instance : IsTrans Repository (fun a b => a.stargazersCount ≤ b.stargazersCount) :=
  ⟨fun _ _ _ hab hbc => le_trans hab hbc⟩

/-- The stable insertion sort satisfies the `sort.Slice` contract. -/
theorem insertionSortDesc_sorts : SortsByStarsDesc insertionSortDesc := by
  intro l
  exact ⟨List.perm_insertionSort _ l, List.sorted_insertionSort _ l⟩

/-- The tie-reversing sort also satisfies the `sort.Slice` contract. -/
theorem revTieSortDesc_sorts : SortsByStarsDesc revTieSortDesc := by
  intro l
  constructor
  · exact (List.reverse_perm _).trans (List.perm_insertionSort _ l)
  · have hs := List.sorted_insertionSort (fun a b => a.stargazersCount ≤ b.stargazersCount) l
    exact List.pairwise_reverse.mpr hs

/-- Membership in an optionally truncated list implies membership in the
list. -/
theorem mem_of_mem_ite_take {α : Type} {l : List α} {n : Nat} {c : Prop}
    [Decidable c] {r : α} (h : r ∈ if c then l.take n else l) : r ∈ l := by
  split at h
  · exact (List.take_sublist _ _).subset h
  · exact h

/-- A list permuting a two-element list is one of its two arrangements. -/
theorem perm_pair_cases {α : Type} {l : List α} {a b : α} (h : l.Perm [a, b]) :
    l = [a, b] ∨ l = [b, a] := by
  match l, h.length_eq with
  | [x, y], _ =>
    have hx : x ∈ [a, b] := h.subset (by simp)
    simp only [List.mem_cons, List.mem_singleton, List.not_mem_nil, or_false] at hx
    rcases hx with hxa | hxb
    · subst hxa
      have hy : [y] = [b] := List.perm_singleton.mp h.cons_inv
      simp only [List.cons.injEq, and_true] at hy
      subst hy
      exact Or.inl rfl
    · subst hxb
      have h2 : [x, y].Perm [x, a] := h.trans (List.Perm.swap x a [])
      have hy : [y] = [a] := List.perm_singleton.mp h2.cons_inv
      simp only [List.cons.injEq, and_true] at hy
      subst hy
      exact Or.inr rfl

/-- The repository list of the claim's example: A is a fork with 10
stars, B has 50 stars, C is archived with 5 stars, D has 30 stars. -/
def repoA : Repository := { name := "A", stargazersCount := 10, fork := true }

/-- Example repository B. -/
def repoB : Repository := { name := "B", stargazersCount := 50 }

/-- Example repository C. -/
def repoC : Repository := { name := "C", stargazersCount := 5, archived := true }

/-- Example repository D. -/
def repoD : Repository := { name := "D", stargazersCount := 30 }

/-- C6: every output project of the importer comes from a non-fork,
non-archived input repository, and on the example list {A:10 fork,
B:50, C:5 archived, D:30} with count 2 the importer returns exactly
[B, D] in that order — for every sort implementation satisfying the
`sort.Slice` contract. -/
theorem c6_fetch_top_projects :
    (∀ (f : List Repository → List Repository), SortsByStarsDesc f →
      ∀ (repos : List Repository) (count : Int) (p : Project),
        p ∈ FetchTopProjects f repos count →
        ∃ r ∈ repos, r.fork = false ∧ r.archived = false ∧ repoToProject r = p) ∧
    (∀ (f : List Repository → List Repository), SortsByStarsDesc f →
      FetchTopProjects f [repoA, repoB, repoC, repoD] 2 =
        [{ name := "B", description := "", url := "", technologies := [], stars := 50 },
         { name := "D", description := "", url := "", technologies := [], stars := 30 }]) := by
  constructor
  · intro f hf repos count p hp
    simp only [FetchTopProjects, List.mem_map] at hp
    obtain ⟨r, hrtop, hrp⟩ := hp
    have hrsorted : r ∈ f (repos.filter (fun repo => !repo.fork && !repo.archived)) :=
      mem_of_mem_ite_take hrtop
    have hrfilter := ((hf _).1.subset) hrsorted
    rw [List.mem_filter] at hrfilter
    have hflags := hrfilter.2
    simp only [Bool.and_eq_true, Bool.not_eq_true'] at hflags
    exact ⟨r, hrfilter.1, hflags.1, hflags.2, hrp⟩
  · intro f hf
    have hfilter : [repoA, repoB, repoC, repoD].filter (fun repo => !repo.fork && !repo.archived)
        = [repoB, repoD] := by decide
    obtain ⟨hperm, hsort⟩ := hf [repoB, repoD]
    have hEq : f [repoB, repoD] = [repoB, repoD] := by
      rcases perm_pair_cases hperm with h | h
      · exact h
      · exfalso
        rw [h] at hsort
        have h50 := (List.pairwise_cons.mp hsort).1 repoB (List.mem_singleton.mpr rfl)
        simp [repoB, repoD] at h50
    simp only [FetchTopProjects, hfilter, hEq]
    decide

/-- Witness for `c6_fetch_top_projects`, instantiated with the stable
insertion sort. -/
theorem c6_fetch_top_projects_witness :
    FetchTopProjects insertionSortDesc [repoA, repoB, repoC, repoD] 2 =
      [{ name := "B", description := "", url := "", technologies := [], stars := 50 },
       { name := "D", description := "", url := "", technologies := [], stars := 30 }] :=
  c6_fetch_top_projects.2 insertionSortDesc insertionSortDesc_sorts

end Resumectl.GitHub

namespace Resumectl.GitHub

open Resumectl

/-- Two equal-star repositories used to exhibit tie handling. -/
def repoX : Repository := { name := "X", stargazersCount := 5 }

/-- The second equal-star repository, encountered after `repoX`. -/
def repoY : Repository := { name := "Y", stargazersCount := 5 }

/-- C7 counterexample.  The claim asserts the ranking sort is stable:
equal-star survivors keep their encounter order, which is equivalent to
the importer agreeing with the stable insertion-sorted pipeline on every
input.  The repository's code invokes `sort.Slice`, which guarantees
only a sorted permutation, and the contract-conforming tie-reversing
sort `revTieSortDesc` makes the importer emit [Y, X] for the equal-star
input [X, Y]. -/
theorem c7_counterexample :
    ¬ (∀ f : List Repository → List Repository, SortsByStarsDesc f →
        ∀ (repos : List Repository) (count : Int),
          FetchTopProjects f repos count = FetchTopProjects insertionSortDesc repos count) := by
  intro h
  have hxy := h revTieSortDesc revTieSortDesc_sorts [repoX, repoY] 2
  revert hxy
  decide

/-- C7 amended: the code guarantees only that the emitted projects are
sorted by stars descending (for every sort implementation satisfying the
`sort.Slice` contract); the order of equal-star projects is not
specified. -/
theorem c7_amended (f : List Repository → List Repository)
    (hf : SortsByStarsDesc f) (repos : List Repository) (count : Int) :
    (FetchTopProjects f repos count).Pairwise (fun p q => q.stars ≤ p.stars) := by
  have key : ∀ (c : Prop) (_ : Decidable c) (n : Nat) (l : List Repository),
      l.Pairwise (fun a b => (repoToProject b).stars ≤ (repoToProject a).stars) →
      (if c then l.take n else l).Pairwise
        (fun a b => (repoToProject b).stars ≤ (repoToProject a).stars) := by
    intro c hc n l hl
    split
    · exact List.Pairwise.sublist (List.take_sublist _ _) hl
    · exact hl
  simp only [FetchTopProjects]
  refine List.pairwise_map.mpr (key _ _ _ _ ?_)
  exact (hf (repos.filter (fun repo => !repo.fork && !repo.archived))).2

/-- Witness for `c7_amended` with the stable insertion sort on the
equal-star example. -/
theorem c7_amended_witness :
    (FetchTopProjects insertionSortDesc [repoX, repoY] 2).Pairwise
      (fun p q => q.stars ≤ p.stars) :=
  c7_amended insertionSortDesc insertionSortDesc_sorts [repoX, repoY] 2

end Resumectl.GitHub

namespace Resumectl.LinkedIn

open Resumectl

/-- A JSON-LD Person whose `worksFor` record has a masked company name
("S\x2a\x2a\x2a Corp") but a real location, description and start date,
and whose `alumniOf` record has a masked school name with a real
description. -/
def c2data : Json :=
  .obj [("@type", .str "Person"),
    ("worksFor", .arr [.obj [("name", .str "S*** Corp"), ("location", .str "Paris"),
      ("member", .obj [("description", .str "Great role"), ("startDate", .str "2020")])]]),
    ("alumniOf", .arr [.obj [("name", .str "U*** University"),
      ("member", .obj [("description", .str "BSc")])]])]

/-- C2 counterexample: the claim says the other fields of a masked-name
record "may still populate an entry appended" to the experience or
education list, but a record whose name is masked yields no company or
school name and is therefore never appended at all — on `c2data` both
lists stay empty despite the populated location, description and start
date. -/
theorem c2_counterexample :
    strContains "S*** Corp" "***" = true ∧
    strContains "U*** University" "***" = true ∧
    (extractFromJSONLD c2data emptyProfile).experience = [] ∧
    (extractFromJSONLD c2data emptyProfile).education = [] := by
  refine ⟨rfl, rfl, ?_, ?_⟩ <;> rfl

/-- C2 amended: a company or school name containing the masking marker
is never copied, and a record whose name is masked contributes no list
entry at all (records are appended only when a non-masked non-empty name
is present); consequently every appended entry has a marker-free
name. -/
theorem c2_amended :
    (∀ (w : Json) (n : String), w.getStr "name" = some n →
      strContains n "***" = true → extractWorkEntry w = none) ∧
    (∀ (s : Json) (n : String), s.getStr "name" = some n →
      strContains n "***" = true → extractEduEntry s = none) ∧
    (∀ (w : Json) (e : LinkedInExperience), extractWorkEntry w = some e →
      e.company ≠ "" ∧ strContains e.company "***" = false) ∧
    (∀ (s : Json) (e : LinkedInEducation), extractEduEntry s = some e →
      e.school ≠ "" ∧ strContains e.school "***" = false) := by
  refine ⟨?_, ?_, ?_, ?_⟩
  · intro w n hname hmask
    simp [extractWorkEntry, hname, hmask]
  · intro s n hname hmask
    simp [extractEduEntry, hname, hmask]
  · intro w e h
    simp only [extractWorkEntry] at h
    split at h
    · rename_i hcomp
      rw [Option.some.injEq] at h
      subst h
      refine ⟨hcomp, ?_⟩
      revert hcomp
      cases hn : w.getStr "name" with
      | none => simp
      | some n =>
        by_cases hm : strContains n "***" = true
        · simp [hm]
        · simp [hm]
    · exact absurd h (by simp)
  · intro s e h
    simp only [extractEduEntry] at h
    split at h
    · rename_i hcomp
      rw [Option.some.injEq] at h
      subst h
      refine ⟨hcomp, ?_⟩
      revert hcomp
      cases hn : s.getStr "name" with
      | none => simp
      | some n =>
        by_cases hm : strContains n "***" = true
        · simp [hm]
        · simp [hm]
    · exact absurd h (by simp)

/-- Witness for `c2_amended` on the masked record of `c2data` and on an
unmasked record. -/
theorem c2_amended_witness :
    extractWorkEntry (.obj [("name", .str "S*** Corp"), ("location", .str "Paris")]) = none ∧
    extractEduEntry (.obj [("name", .str "U*** University")]) = none ∧
    (Option.getD (extractWorkEntry (.obj [("name", .str "Acme")])) {}).company ≠ "" := by
  refine ⟨?_, ?_, ?_⟩
  · exact c2_amended.1 (.obj [("name", .str "S*** Corp"), ("location", .str "Paris")])
      "S*** Corp" (by rfl) (by rfl)
  · exact c2_amended.2.1 (.obj [("name", .str "U*** University")])
      "U*** University" (by rfl) (by rfl)
  · have := c2_amended.2.2.1 (.obj [("name", .str "Acme")])
      { title := "", company := "Acme", location := "", startDate := "", endDate := "", description := "" }
      (by rfl)
    exact this.1

end Resumectl.LinkedIn

namespace Resumectl.LinkedIn

open Resumectl

/-- `nameStep` leaves the headline unchanged. -/
@[simp] theorem nameStep_headline (data : Json) (p : LinkedInProfile) :
    (nameStep data p).headline = p.headline := by
  unfold nameStep
  split <;> (try split) <;> (try split) <;> rfl

/-- `nameStep` leaves the summary unchanged. -/
@[simp] theorem nameStep_summary (data : Json) (p : LinkedInProfile) :
    (nameStep data p).summary = p.summary := by
  unfold nameStep
  split <;> (try split) <;> (try split) <;> rfl

/-- `nameStep` leaves the location unchanged. -/
@[simp] theorem nameStep_location (data : Json) (p : LinkedInProfile) :
    (nameStep data p).location = p.location := by
  unfold nameStep
  split <;> (try split) <;> (try split) <;> rfl

/-- `nameStep` writes nothing once a first name is present. -/
theorem nameStep_id (data : Json) (p : LinkedInProfile) (h : p.firstName ≠ "") :
    nameStep data p = p := by
  unfold nameStep
  split
  · rw [if_neg h]
  · rfl

/-- `descStepLD` leaves the first name unchanged. -/
@[simp] theorem descStepLD_firstName (data : Json) (p : LinkedInProfile) :
    (descStepLD data p).firstName = p.firstName := by
  unfold descStepLD
  split <;> (try split) <;> rfl

/-- `descStepLD` leaves the last name unchanged. -/
@[simp] theorem descStepLD_lastName (data : Json) (p : LinkedInProfile) :
    (descStepLD data p).lastName = p.lastName := by
  unfold descStepLD
  split <;> (try split) <;> rfl

/-- `descStepLD` leaves the headline unchanged. -/
@[simp] theorem descStepLD_headline (data : Json) (p : LinkedInProfile) :
    (descStepLD data p).headline = p.headline := by
  unfold descStepLD
  split <;> (try split) <;> rfl

/-- `descStepLD` leaves the location unchanged. -/
@[simp] theorem descStepLD_location (data : Json) (p : LinkedInProfile) :
    (descStepLD data p).location = p.location := by
  unfold descStepLD
  split <;> (try split) <;> rfl

/-- `descStepLD` writes nothing once a summary is present. -/
theorem descStepLD_id (data : Json) (p : LinkedInProfile) (h : p.summary ≠ "") :
    descStepLD data p = p := by
  unfold descStepLD
  split
  · rw [if_neg h]
  · rfl

/-- `addrStep` leaves the first name unchanged. -/
@[simp] theorem addrStep_firstName (data : Json) (p : LinkedInProfile) :
    (addrStep data p).firstName = p.firstName := by
  unfold addrStep
  split <;> (try split) <;> (try split) <;> rfl

/-- `addrStep` leaves the last name unchanged. -/
@[simp] theorem addrStep_lastName (data : Json) (p : LinkedInProfile) :
    (addrStep data p).lastName = p.lastName := by
  unfold addrStep
  split <;> (try split) <;> (try split) <;> rfl

/-- `addrStep` leaves the headline unchanged. -/
@[simp] theorem addrStep_headline (data : Json) (p : LinkedInProfile) :
    (addrStep data p).headline = p.headline := by
  unfold addrStep
  split <;> (try split) <;> (try split) <;> rfl

/-- `addrStep` leaves the summary unchanged. -/
@[simp] theorem addrStep_summary (data : Json) (p : LinkedInProfile) :
    (addrStep data p).summary = p.summary := by
  unfold addrStep
  split <;> (try split) <;> (try split) <;> rfl

/-- `worksStep` leaves the first name unchanged. -/
@[simp] theorem worksStep_firstName (data : Json) (p : LinkedInProfile) :
    (worksStep data p).firstName = p.firstName := rfl

/-- `worksStep` leaves the last name unchanged. -/
@[simp] theorem worksStep_lastName (data : Json) (p : LinkedInProfile) :
    (worksStep data p).lastName = p.lastName := rfl

/-- `worksStep` leaves the headline unchanged. -/
@[simp] theorem worksStep_headline (data : Json) (p : LinkedInProfile) :
    (worksStep data p).headline = p.headline := rfl

/-- `worksStep` leaves the summary unchanged. -/
@[simp] theorem worksStep_summary (data : Json) (p : LinkedInProfile) :
    (worksStep data p).summary = p.summary := rfl

/-- `worksStep` leaves the location unchanged. -/
@[simp] theorem worksStep_location (data : Json) (p : LinkedInProfile) :
    (worksStep data p).location = p.location := rfl

/-- `eduStep` leaves the first name unchanged. -/
@[simp] theorem eduStep_firstName (data : Json) (p : LinkedInProfile) :
    (eduStep data p).firstName = p.firstName := rfl

/-- `eduStep` leaves the last name unchanged. -/
@[simp] theorem eduStep_lastName (data : Json) (p : LinkedInProfile) :
    (eduStep data p).lastName = p.lastName := rfl

/-- `eduStep` leaves the headline unchanged. -/
@[simp] theorem eduStep_headline (data : Json) (p : LinkedInProfile) :
    (eduStep data p).headline = p.headline := rfl

/-- `eduStep` leaves the summary unchanged. -/
@[simp] theorem eduStep_summary (data : Json) (p : LinkedInProfile) :
    (eduStep data p).summary = p.summary := rfl

/-- `eduStep` leaves the location unchanged. -/
@[simp] theorem eduStep_location (data : Json) (p : LinkedInProfile) :
    (eduStep data p).location = p.location := rfl

/-- `langStep` leaves the first name unchanged. -/
@[simp] theorem langStep_firstName (data : Json) (p : LinkedInProfile) :
    (langStep data p).firstName = p.firstName := rfl

/-- `langStep` leaves the last name unchanged. -/
@[simp] theorem langStep_lastName (data : Json) (p : LinkedInProfile) :
    (langStep data p).lastName = p.lastName := rfl

/-- `langStep` leaves the headline unchanged. -/
@[simp] theorem langStep_headline (data : Json) (p : LinkedInProfile) :
    (langStep data p).headline = p.headline := rfl

/-- `langStep` leaves the summary unchanged. -/
@[simp] theorem langStep_summary (data : Json) (p : LinkedInProfile) :
    (langStep data p).summary = p.summary := rfl

/-- `langStep` leaves the location unchanged. -/
@[simp] theorem langStep_location (data : Json) (p : LinkedInProfile) :
    (langStep data p).location = p.location := rfl

/-- `skillsStep` leaves the first name unchanged. -/
@[simp] theorem skillsStep_firstName (data : Json) (p : LinkedInProfile) :
    (skillsStep data p).firstName = p.firstName := rfl

/-- `skillsStep` leaves the last name unchanged. -/
@[simp] theorem skillsStep_lastName (data : Json) (p : LinkedInProfile) :
    (skillsStep data p).lastName = p.lastName := rfl

/-- `skillsStep` leaves the headline unchanged. -/
@[simp] theorem skillsStep_headline (data : Json) (p : LinkedInProfile) :
    (skillsStep data p).headline = p.headline := rfl

/-- `skillsStep` leaves the summary unchanged. -/
@[simp] theorem skillsStep_summary (data : Json) (p : LinkedInProfile) :
    (skillsStep data p).summary = p.summary := rfl

/-- `skillsStep` leaves the location unchanged. -/
@[simp] theorem skillsStep_location (data : Json) (p : LinkedInProfile) :
    (skillsStep data p).location = p.location := rfl

/-- `titleStepLD` leaves the first name unchanged. -/
@[simp] theorem titleStepLD_firstName (data : Json) (p : LinkedInProfile) :
    (titleStepLD data p).firstName = p.firstName := by
  unfold titleStepLD
  split <;> (try split) <;> (try split) <;> rfl

/-- `titleStepLD` leaves the last name unchanged. -/
@[simp] theorem titleStepLD_lastName (data : Json) (p : LinkedInProfile) :
    (titleStepLD data p).lastName = p.lastName := by
  unfold titleStepLD
  split <;> (try split) <;> (try split) <;> rfl

/-- `titleStepLD` leaves the summary unchanged. -/
@[simp] theorem titleStepLD_summary (data : Json) (p : LinkedInProfile) :
    (titleStepLD data p).summary = p.summary := by
  unfold titleStepLD
  split <;> (try split) <;> (try split) <;> rfl

/-- `titleStepLD` leaves the location unchanged. -/
@[simp] theorem titleStepLD_location (data : Json) (p : LinkedInProfile) :
    (titleStepLD data p).location = p.location := by
  unfold titleStepLD
  split <;> (try split) <;> (try split) <;> rfl

end Resumectl.LinkedIn

namespace Resumectl.LinkedIn

open Resumectl

/-- `metaTitleStep` leaves the summary unchanged. -/
@[simp] theorem metaTitleStep_summary (doc : HtmlDoc) (p : LinkedInProfile) :
    (metaTitleStep doc p).summary = p.summary := by
  unfold metaTitleStep
  split <;> (try split) <;> (try split) <;> rfl

/-- `metaTitleStep` leaves the location unchanged. -/
@[simp] theorem metaTitleStep_location (doc : HtmlDoc) (p : LinkedInProfile) :
    (metaTitleStep doc p).location = p.location := by
  unfold metaTitleStep
  split <;> (try split) <;> (try split) <;> rfl

/-- A non-empty first name survives `metaFirstNameOf`. -/
theorem metaFirstNameOf_id (namePart old : String) (h : old ≠ "") :
    metaFirstNameOf namePart old = old := by
  unfold metaFirstNameOf
  rw [if_neg (fun hand => h hand.1)]

/-- A non-empty last name survives `metaLastNameOf`. -/
theorem metaLastNameOf_id (namePart old : String) (h : old ≠ "") :
    metaLastNameOf namePart old = old := by
  unfold metaLastNameOf
  rw [if_neg (fun hand => h hand.1)]

/-- A non-empty headline survives `metaHeadlineOf`. -/
theorem metaHeadlineOf_id (restPart old : String) (h : old ≠ "") :
    metaHeadlineOf restPart old = old := by
  unfold metaHeadlineOf
  split
  · rw [if_neg (fun hand => h hand.2)]
  · rfl

/-- `metaTitleStep` keeps a non-empty first name. -/
theorem metaTitleStep_firstName (doc : HtmlDoc) (p : LinkedInProfile)
    (h : p.firstName ≠ "") : (metaTitleStep doc p).firstName = p.firstName := by
  unfold metaTitleStep
  split <;> (try split) <;> (try split) <;>
    simp [metaFirstNameOf_id _ _ h]

/-- `metaTitleStep` keeps a non-empty last name. -/
theorem metaTitleStep_lastName (doc : HtmlDoc) (p : LinkedInProfile)
    (h : p.lastName ≠ "") : (metaTitleStep doc p).lastName = p.lastName := by
  unfold metaTitleStep
  split <;> (try split) <;> (try split) <;>
    simp [metaLastNameOf_id _ _ h]

/-- `metaTitleStep` keeps a non-empty headline. -/
theorem metaTitleStep_headline (doc : HtmlDoc) (p : LinkedInProfile)
    (h : p.headline ≠ "") : (metaTitleStep doc p).headline = p.headline := by
  unfold metaTitleStep
  split <;> (try split) <;> (try split) <;>
    simp [metaHeadlineOf_id _ _ h]

/-- `metaDescStep` leaves the first name unchanged. -/
@[simp] theorem metaDescStep_firstName (order : List (String × String))
    (doc : HtmlDoc) (p : LinkedInProfile) :
    (metaDescStep order doc p).firstName = p.firstName := by
  unfold metaDescStep
  split <;> (try split) <;> rfl

/-- `metaDescStep` leaves the last name unchanged. -/
@[simp] theorem metaDescStep_lastName (order : List (String × String))
    (doc : HtmlDoc) (p : LinkedInProfile) :
    (metaDescStep order doc p).lastName = p.lastName := by
  unfold metaDescStep
  split <;> (try split) <;> rfl

/-- `metaDescStep` leaves the headline unchanged. -/
@[simp] theorem metaDescStep_headline (order : List (String × String))
    (doc : HtmlDoc) (p : LinkedInProfile) :
    (metaDescStep order doc p).headline = p.headline := by
  unfold metaDescStep
  split <;> (try split) <;> rfl

/-- `metaDescStep` leaves the location unchanged. -/
@[simp] theorem metaDescStep_location (order : List (String × String))
    (doc : HtmlDoc) (p : LinkedInProfile) :
    (metaDescStep order doc p).location = p.location := by
  unfold metaDescStep
  split <;> (try split) <;> rfl

/-- `metaDescStep` keeps a non-empty summary. -/
theorem metaDescStep_id (order : List (String × String)) (doc : HtmlDoc)
    (p : LinkedInProfile) (h : p.summary ≠ "") : metaDescStep order doc p = p := by
  unfold metaDescStep
  split
  · rw [if_neg h]
  · rfl

/-- `metaGeoStep` leaves the first name unchanged. -/
@[simp] theorem metaGeoStep_firstName (doc : HtmlDoc) (p : LinkedInProfile) :
    (metaGeoStep doc p).firstName = p.firstName := by
  unfold metaGeoStep
  split <;> (try split) <;> rfl

/-- `metaGeoStep` leaves the last name unchanged. -/
@[simp] theorem metaGeoStep_lastName (doc : HtmlDoc) (p : LinkedInProfile) :
    (metaGeoStep doc p).lastName = p.lastName := by
  unfold metaGeoStep
  split <;> (try split) <;> rfl

/-- `metaGeoStep` leaves the headline unchanged. -/
@[simp] theorem metaGeoStep_headline (doc : HtmlDoc) (p : LinkedInProfile) :
    (metaGeoStep doc p).headline = p.headline := by
  unfold metaGeoStep
  split <;> (try split) <;> rfl

/-- `metaGeoStep` leaves the summary unchanged. -/
@[simp] theorem metaGeoStep_summary (doc : HtmlDoc) (p : LinkedInProfile) :
    (metaGeoStep doc p).summary = p.summary := by
  unfold metaGeoStep
  split <;> (try split) <;> rfl

/-- `metaGeoStep` keeps a non-empty location. -/
theorem metaGeoStep_id (doc : HtmlDoc) (p : LinkedInProfile)
    (h : p.location ≠ "") : metaGeoStep doc p = p := by
  unfold metaGeoStep
  split
  · rw [if_neg h]
  · rfl

/-- `contentLocLoop` leaves the first name unchanged. -/
@[simp] theorem contentLocLoop_firstName :
    ∀ (ms : List (Option String)) (p : LinkedInProfile),
      (contentLocLoop ms p).firstName = p.firstName
  | [], _ => rfl
  | none :: rest, p => contentLocLoop_firstName rest p
  | some _ :: rest, p => by
    unfold contentLocLoop
    split
    · rfl
    · exact contentLocLoop_firstName rest p

/-- `contentLocLoop` leaves the last name unchanged. -/
@[simp] theorem contentLocLoop_lastName :
    ∀ (ms : List (Option String)) (p : LinkedInProfile),
      (contentLocLoop ms p).lastName = p.lastName
  | [], _ => rfl
  | none :: rest, p => contentLocLoop_lastName rest p
  | some _ :: rest, p => by
    unfold contentLocLoop
    split
    · rfl
    · exact contentLocLoop_lastName rest p

/-- `contentLocLoop` leaves the headline unchanged. -/
@[simp] theorem contentLocLoop_headline :
    ∀ (ms : List (Option String)) (p : LinkedInProfile),
      (contentLocLoop ms p).headline = p.headline
  | [], _ => rfl
  | none :: rest, p => contentLocLoop_headline rest p
  | some _ :: rest, p => by
    unfold contentLocLoop
    split
    · rfl
    · exact contentLocLoop_headline rest p

/-- `contentLocLoop` leaves the summary unchanged. -/
@[simp] theorem contentLocLoop_summary :
    ∀ (ms : List (Option String)) (p : LinkedInProfile),
      (contentLocLoop ms p).summary = p.summary
  | [], _ => rfl
  | none :: rest, p => contentLocLoop_summary rest p
  | some _ :: rest, p => by
    unfold contentLocLoop
    split
    · rfl
    · exact contentLocLoop_summary rest p

/-- `contentLocLoop` writes nothing once a location is present. -/
theorem contentLocLoop_id :
    ∀ (ms : List (Option String)) (p : LinkedInProfile), p.location ≠ "" →
      contentLocLoop ms p = p
  | [], _, _ => rfl
  | none :: rest, p, h => contentLocLoop_id rest p h
  | some _ :: rest, p, h => by
    unfold contentLocLoop
    rw [if_neg (by simp [h])]
    exact contentLocLoop_id rest p h

/-- `usernameFallback` writes nothing once any name part is present. -/
theorem usernameFallback_id (u : String) (p : LinkedInProfile)
    (h : p.firstName ≠ "" ∨ p.lastName ≠ "") : usernameFallback u p = p := by
  unfold usernameFallback
  rw [if_neg]
  intro hand
  rcases h with h1 | h2
  · exact h1 hand.1
  · exact h2 hand.2

end Resumectl.LinkedIn

namespace Resumectl.LinkedIn

open Resumectl

/-- C1 amended: first name (and the last name along with it) and summary
are first-writer-wins everywhere: the JSON-LD extractor never overwrites
a non-empty first name, last-name-next-to-it, or summary; the meta-tag
step never overwrites any non-empty scalar field; the visible-content
step writes only an unset location; and the username fallback fires only
when both name parts are unset.  (Location and headline, by contrast,
can be overwritten by a later record within the JSON-LD sub-step — see
the counterexample — which is what the original claim excludes.) -/
theorem c1_amended :
    (∀ (data : Json) (p : LinkedInProfile), p.firstName ≠ "" →
      (extractFromJSONLD data p).firstName = p.firstName ∧
      (extractFromJSONLD data p).lastName = p.lastName) ∧
    (∀ (data : Json) (p : LinkedInProfile), p.summary ≠ "" →
      (extractFromJSONLD data p).summary = p.summary) ∧
    (∀ (order : List (String × String)) (doc : HtmlDoc) (p : LinkedInProfile),
      (p.firstName ≠ "" → (extractFromMetaTags order doc p).firstName = p.firstName) ∧
      (p.lastName ≠ "" → (extractFromMetaTags order doc p).lastName = p.lastName) ∧
      (p.headline ≠ "" → (extractFromMetaTags order doc p).headline = p.headline) ∧
      (p.summary ≠ "" → (extractFromMetaTags order doc p).summary = p.summary) ∧
      (p.location ≠ "" → (extractFromMetaTags order doc p).location = p.location)) ∧
    (∀ (doc : HtmlDoc) (p : LinkedInProfile),
      (extractFromHTMLContent doc p).firstName = p.firstName ∧
      (extractFromHTMLContent doc p).lastName = p.lastName ∧
      (extractFromHTMLContent doc p).headline = p.headline ∧
      (extractFromHTMLContent doc p).summary = p.summary ∧
      (p.location ≠ "" → extractFromHTMLContent doc p = p)) ∧
    (∀ (u : String) (p : LinkedInProfile), p.firstName ≠ "" ∨ p.lastName ≠ "" →
      usernameFallback u p = p) := by
  refine ⟨?_, ?_, ?_, ?_, ?_⟩
  · intro data p h
    unfold extractFromJSONLD
    split
    · exact ⟨rfl, rfl⟩
    · constructor <;> simp [nameStep_id data p h]
  · intro data p h
    unfold extractFromJSONLD
    split
    · rfl
    · have hq : (nameStep data p).summary ≠ "" := by simp [h]
      simp [descStepLD_id data _ hq, h]
  · intro order doc p
    refine ⟨?_, ?_, ?_, ?_, ?_⟩ <;> intro h
    · simp [extractFromMetaTags, metaTitleStep_firstName doc p h]
    · simp [extractFromMetaTags, metaTitleStep_lastName doc p h]
    · simp [extractFromMetaTags, metaTitleStep_headline doc p h]
    · have hq : (metaTitleStep doc p).summary ≠ "" := by simp [h]
      simp [extractFromMetaTags, metaDescStep_id order doc _ hq, h]
    · have hq : (metaDescStep order doc (metaTitleStep doc p)).location ≠ "" := by simp [h]
      simp [extractFromMetaTags, metaGeoStep_id doc _ hq, h]
  · intro doc p
    refine ⟨?_, ?_, ?_, ?_, ?_⟩
    · simp [extractFromHTMLContent]
    · simp [extractFromHTMLContent]
    · simp [extractFromHTMLContent]
    · simp [extractFromHTMLContent]
    · intro h
      exact contentLocLoop_id doc.contentMatches p h
  · intro u p h
    exact usernameFallback_id u p h

/-- First JSON-LD block of the C1 counterexample: a Person with location
"Paris" and job title "Engineer". -/
def c1block1 : Json :=
  .obj [("@type", .str "Person"),
    ("address", .obj [("addressLocality", .str "Paris")]),
    ("jobTitle", .str "Engineer")]

/-- Second JSON-LD block of the C1 counterexample: a Person with
location "Berlin" and job title "Manager". -/
def c1block2 : Json :=
  .obj [("@type", .str "Person"),
    ("address", .obj [("addressLocality", .str "Berlin")]),
    ("jobTitle", .str "Manager")]

/-- An HTML document carrying the two blocks and nothing else. -/
def c1doc : HtmlDoc :=
  { jsonLdBlocks := [c1block1, c1block2], ogTitle := none, ogDescription := none,
    geoPlacename := none, contentMatches := [] }

/-- C1 counterexample: after the first JSON-LD record the location holds
the non-empty value "Paris" and the headline "Engineer", yet the second
record of the same sub-step overwrites them to "Berlin" and "Manager" —
both within one run of the unauthenticated cascade, whose final profile
carries the later values. -/
theorem c1_counterexample :
    (processJsonLdBlock emptyProfile c1block1).location = "Paris" ∧
    (processJsonLdBlock emptyProfile c1block1).location ≠ "" ∧
    (processJsonLdBlock emptyProfile c1block1).headline = "Engineer" ∧
    (processJsonLdBlock (processJsonLdBlock emptyProfile c1block1) c1block2).location = "Berlin" ∧
    (processJsonLdBlock (processJsonLdBlock emptyProfile c1block1) c1block2).headline = "Manager" ∧
    (parseLinkedInHTML entityReplacements c1doc "john-doe").location = "Berlin" ∧
    (parseLinkedInHTML entityReplacements c1doc "john-doe").headline = "Manager" := by
  refine ⟨rfl, by decide, rfl, rfl, rfl, rfl, rfl⟩

/-- A fully populated profile used to witness the preservation
statements of `c1_amended`. -/
def c1filled : LinkedInProfile :=
  { firstName := "Jane", lastName := "Doe", headline := "Engineer",
    location := "Paris", summary := "Bio" }

/-- Witness for `c1_amended` on `c1filled`, whose scalar fields are all
non-empty, against the overwriting block `c1block2`. -/
theorem c1_amended_witness :
    ((extractFromJSONLD c1block2 c1filled).firstName = c1filled.firstName ∧
     (extractFromJSONLD c1block2 c1filled).lastName = c1filled.lastName) ∧
    (extractFromJSONLD c1block2 c1filled).summary = c1filled.summary ∧
    (extractFromMetaTags entityReplacements c1doc c1filled).headline = c1filled.headline ∧
    extractFromHTMLContent c1doc c1filled = c1filled ∧
    usernameFallback "john-doe" c1filled = c1filled :=
  ⟨c1_amended.1 c1block2 c1filled (by decide),
   c1_amended.2.1 c1block2 c1filled (by decide),
   (c1_amended.2.2.1 entityReplacements c1doc c1filled).2.2.1 (by decide),
   (c1_amended.2.2.2.1 c1doc c1filled).2.2.2.2 (by decide),
   c1_amended.2.2.2.2 "john-doe" c1filled (Or.inl (by decide))⟩

end Resumectl.LinkedIn

namespace Resumectl.LinkedIn

open Resumectl

/-- Two extracted profiles that agree on every field except possibly the
summary. -/
def AgreeExceptSummary (p q : LinkedInProfile) : Prop :=
  p.firstName = q.firstName ∧ p.lastName = q.lastName ∧ p.headline = q.headline ∧
  p.location = q.location ∧ p.experience = q.experience ∧ p.education = q.education ∧
  p.skills = q.skills ∧ p.languages = q.languages ∧ p.certifications = q.certifications

/-- `AgreeExceptSummary` is reflexive. -/
theorem agreeExceptSummary_refl (p : LinkedInProfile) : AgreeExceptSummary p p :=
  ⟨rfl, rfl, rfl, rfl, rfl, rfl, rfl, rfl, rfl⟩

/-- The two entity orders can differ only in the written summary. -/
theorem metaDescStep_agree (o1 o2 : List (String × String)) (doc : HtmlDoc)
    (p : LinkedInProfile) :
    AgreeExceptSummary (metaDescStep o1 doc p) (metaDescStep o2 doc p) := by
  unfold metaDescStep
  cases hd : doc.ogDescription with
  | none => exact agreeExceptSummary_refl p
  | some d =>
    by_cases hs : p.summary = ""
    · simp only [hs, if_pos]
      exact ⟨rfl, rfl, rfl, rfl, rfl, rfl, rfl, rfl, rfl⟩
    · simp only [if_neg hs]
      exact agreeExceptSummary_refl p

/-- `metaGeoStep` preserves agreement-except-summary. -/
theorem metaGeoStep_congr (doc : HtmlDoc) (p q : LinkedInProfile)
    (h : AgreeExceptSummary p q) :
    AgreeExceptSummary (metaGeoStep doc p) (metaGeoStep doc q) := by
  obtain ⟨h1, h2, h3, h4, h5, h6, h7, h8, h9⟩ := h
  unfold metaGeoStep
  cases hd : doc.geoPlacename with
  | none => exact ⟨h1, h2, h3, h4, h5, h6, h7, h8, h9⟩
  | some g =>
    dsimp only
    by_cases hl : p.location = ""
    · rw [if_pos hl, if_pos (h4 ▸ hl)]
      exact ⟨h1, h2, h3, rfl, h5, h6, h7, h8, h9⟩
    · rw [if_neg hl, if_neg (h4 ▸ hl)]
      exact ⟨h1, h2, h3, h4, h5, h6, h7, h8, h9⟩

/-- `contentLocLoop` preserves agreement-except-summary. -/
theorem contentLocLoop_congr :
    ∀ (ms : List (Option String)) (p q : LinkedInProfile),
      AgreeExceptSummary p q →
      AgreeExceptSummary (contentLocLoop ms p) (contentLocLoop ms q)
  | [], _, _, h => h
  | none :: rest, p, q, h => contentLocLoop_congr rest p q h
  | some m :: rest, p, q, h => by
    obtain ⟨h1, h2, h3, h4, h5, h6, h7, h8, h9⟩ := h
    unfold contentLocLoop
    by_cases hc : p.location = "" ∧ (!strContains (trimSpace m) "@") = true
    · rw [if_pos hc, if_pos (by rw [← h4]; exact hc)]
      exact ⟨h1, h2, h3, rfl, h5, h6, h7, h8, h9⟩
    · rw [if_neg hc, if_neg (by rw [← h4]; exact hc)]
      exact contentLocLoop_congr rest p q ⟨h1, h2, h3, h4, h5, h6, h7, h8, h9⟩

/-- `usernameFallback` preserves agreement-except-summary. -/
theorem usernameFallback_congr (u : String) (p q : LinkedInProfile)
    (h : AgreeExceptSummary p q) :
    AgreeExceptSummary (usernameFallback u p) (usernameFallback u q) := by
  obtain ⟨h1, h2, h3, h4, h5, h6, h7, h8, h9⟩ := h
  unfold usernameFallback
  by_cases hc : p.firstName = "" ∧ p.lastName = ""
  · rw [if_pos hc, if_pos (by rw [← h1, ← h2]; exact hc)]
    split
    · exact ⟨rfl, rfl, h3, h4, h5, h6, h7, h8, h9⟩
    · exact ⟨rfl, h2, h3, h4, h5, h6, h7, h8, h9⟩
  · rw [if_neg hc, if_neg (by rw [← h1, ← h2]; exact hc)]
    exact ⟨h1, h2, h3, h4, h5, h6, h7, h8, h9⟩

/-- When the two entity orders clean the og:description identically, the
meta description steps coincide exactly. -/
theorem metaDescStep_eq_of_clean (o1 o2 : List (String × String)) (doc : HtmlDoc)
    (p : LinkedInProfile)
    (h : ∀ d, doc.ogDescription = some d → cleanHTMLEntities o1 d = cleanHTMLEntities o2 d) :
    metaDescStep o1 doc p = metaDescStep o2 doc p := by
  unfold metaDescStep
  cases hd : doc.ogDescription with
  | none => rfl
  | some d =>
    dsimp only
    rw [h d hd]

/-- C3 amended: the unauthenticated cascade is a pure function of the
HTML document, the handle, and the iteration order of the
entity-replacement map.  Two runs with different orders agree on every
field except possibly the summary, and agree completely whenever their
entity cleanups coincide on the og:description (in particular whenever
there is none) — but the order can leak into the summary, so the claim's
unconditional run-to-run determinism fails (see the counterexample). -/
theorem c3_amended (o1 o2 : List (String × String)) (doc : HtmlDoc) (u : String) :
    AgreeExceptSummary (parseLinkedInHTML o1 doc u) (parseLinkedInHTML o2 doc u) ∧
    ((∀ d, doc.ogDescription = some d →
        cleanHTMLEntities o1 d = cleanHTMLEntities o2 d) →
      parseLinkedInHTML o1 doc u = parseLinkedInHTML o2 doc u) := by
  constructor
  · unfold parseLinkedInHTML extractFromMetaTags extractFromHTMLContent
    apply usernameFallback_congr
    apply contentLocLoop_congr
    apply metaGeoStep_congr
    exact metaDescStep_agree o1 o2 doc _
  · intro h
    unfold parseLinkedInHTML extractFromMetaTags
    rw [metaDescStep_eq_of_clean o1 o2 doc _ h]

/-- The entity order that visits the ampersand replacement last; a
permutation of `entityReplacements`. -/
def c3orderB : List (String × String) :=
  [("&lt;", "<"), ("&gt;", ">"), ("&quot;", "\""), ("&#39;", "\x27"),
   ("&nbsp;", " "), ("&amp;", "&")]

/-- A document whose og:description contains the nested entity
"&amp;lt;". -/
def c3doc : HtmlDoc :=
  { jsonLdBlocks := [], ogTitle := none, ogDescription := some "&amp;lt;",
    geoPlacename := none, contentMatches := [] }

/-- C3 counterexample: `cleanHTMLEntities` iterates a Go map, so a run
may visit the replacements in the order `entityReplacements` and another
in the order `c3orderB` (a permutation of it); on og:description
"&amp;lt;" the first run's summary is "<" while the second run's is
"&lt;", so two runs of the cascade on identical HTML produce different
Extracted Profiles. -/
theorem c3_counterexample :
    List.Perm c3orderB entityReplacements ∧
    (parseLinkedInHTML entityReplacements c3doc "u").summary = "<" ∧
    (parseLinkedInHTML c3orderB c3doc "u").summary = "&lt;" ∧
    parseLinkedInHTML entityReplacements c3doc "u" ≠ parseLinkedInHTML c3orderB c3doc "u" := by
  refine ⟨by decide, rfl, rfl, by decide⟩

/-- A document with no og:description (and nothing else). -/
def c3docNone : HtmlDoc :=
  { jsonLdBlocks := [], ogTitle := none, ogDescription := none,
    geoPlacename := none, contentMatches := [] }

/-- Witness for `c3_amended`: on a document without an og:description,
the two orders produce fully identical profiles. -/
theorem c3_amended_witness :
    AgreeExceptSummary (parseLinkedInHTML entityReplacements c3docNone "u")
      (parseLinkedInHTML c3orderB c3docNone "u") ∧
    parseLinkedInHTML entityReplacements c3docNone "u" =
      parseLinkedInHTML c3orderB c3docNone "u" :=
  ⟨(c3_amended entityReplacements c3orderB c3docNone "u").1,
   (c3_amended entityReplacements c3orderB c3docNone "u").2 (fun _ h => nomatch h)⟩

end Resumectl.LinkedIn
